import Mathlib

/-!
Shallow embedding of the 6LoWPAN outbound frame assembly core
(net/sixlowpan/sixlowpan_framelist.c): the uncompressed-IPv6 dispatch
writer sixlowpan_compress_ipv6hdr and the frame queuer
sixlowpan_queue_frames, together with theorems about fragmentation
accounting, frame-length invariants, fragment-header fields, tag
handling and error paths.

Machine integers are modelled as Nat with explicit reductions modulo
2^8 / 2^16 exactly where the C code assigns to uint8_t / uint16_t
fields, and as Int where the C code computes in signed int (the
paysize mask computations).  Byte regions are modelled as List Nat.
-/

namespace SixlowpanModel

/-- Modelled from the spec: single dispatch byte 0x41 for uncompressed
IPv6 (wire format, spec section 4.2/6); the constant lives in
sixlowpan_internal.h which is not part of src/. -/
def SIXLOWPAN_DISPATCH_IPV6 : Nat := 0x41

/-- Modelled from the spec: the IPv6 dispatch occupies one byte. -/
def SIXLOWPAN_IPV6_HDR_LEN : Nat := 1

/-- Modelled from the spec: the IPv6 header is 40 bytes. -/
def IPv6_HDRLEN : Nat := 40

/-- Modelled from the spec: FRAG1 dispatch, top five bits 0b11000,
so the dispatch byte value is 0xc0. -/
def SIXLOWPAN_DISPATCH_FRAG1 : Nat := 0xc0

/-- Modelled from the spec: FRAGN dispatch, top five bits 0b11100,
so the dispatch byte value is 0xe0. -/
def SIXLOWPAN_DISPATCH_FRAGN : Nat := 0xe0

/-- Modelled from the spec: the FRAG1 header is 4 bytes. -/
def SIXLOWPAN_FRAG1_HDR_LEN : Nat := 4

/-- Modelled from the spec: the FRAGN paysize mask 0xf8 (payload
truncated to a multiple of 8). -/
def SIXLOWPAN_DISPATCH_FRAG_MASK : Nat := 0xf8

/-- Modelled from the spec: the FRAGN header is 5 bytes. -/
def SIXLOWPAN_FRAGN_HDR_LEN : Nat := 5

/-- Modelled from the spec: IANA protocol number of TCP, the value of
the proto field the switch in sixlowpan_compress_ipv6hdr tests. -/
def IP_PROTO_TCP : Nat := 6

/-- Modelled from the spec: IANA protocol number of UDP. -/
def IP_PROTO_UDP : Nat := 17

/-- Modelled from the spec: IANA protocol number of ICMPv6. -/
def IP_PROTO_ICMP6 : Nat := 58

/-- Modelled from the spec: transport header size for UDP, the size of
struct udp_hdr_s (8 bytes, spec section 4.2 table). -/
def UDP_HDRLEN : Nat := 8

/-- Modelled from the spec: transport header size for ICMPv6 (8 bytes,
spec section 4.2 table). -/
def ICMPv6_HDRLEN : Nat := 8

/-- Modelled from the spec: POSIX errno value E2BIG = 7; the queuer
returns the negated value for the too-big failure. -/
def E2BIG : Int := 7

/-- The OK return value of the queuer. -/
def OK : Int := 0

/-- Reduction modulo 2^16, applied where C assigns to a uint16_t. -/
def u16 (n : Nat) : Nat := n % 65536

/-- Reduction modulo 2^8, applied where C assigns to a uint8_t. -/
def u8 (n : Nat) : Nat := n % 256

/-- High byte written by PUTINT16 (big-endian): the value is first
truncated to uint16, then shifted right by 8. -/
def hi8 (v : Nat) : Nat := u8 (u16 v >>> 8)

/-- Low byte written by PUTINT16 (big-endian). -/
def lo8 (v : Nat) : Nat := u8 v

/-- The transport-header size chosen by the switch on ipv6hdr->proto in
sixlowpan_compress_ipv6hdr.  The proto field is byte 6 of the IPv6
header; the TCP data-offset field is byte 12 of the TCP header, hence
byte 52 of the datagram.  none models the default branch (warning and
early return). -/
def protosize (dat : List Nat) : Option Nat :=
  if dat.getD 6 0 = IP_PROTO_TCP then some ((dat.getD 52 0 >>> 4) <<< 2)
  else if dat.getD 6 0 = IP_PROTO_UDP then some UDP_HDRLEN
  else if dat.getD 6 0 = IP_PROTO_ICMP6 then some ICMPv6_HDRLEN
  else none

/-- Result of sixlowpan_compress_ipv6hdr: the bytes written into the
frame starting at offset frame_hdrlen, and the final values of the
globals g_frame_hdrlen and g_uncomp_hdrlen. -/
structure CompressResult where
  written : List Nat
  frame_hdrlen : Nat
  uncomp_hdrlen : Nat
deriving DecidableEq

/-- sixlowpan_compress_ipv6hdr, translated from the source: write the
dispatch byte 0x41 at fptr[g_frame_hdrlen], advance g_frame_hdrlen by
1; copy the 40-byte IPv6 header, advance g_frame_hdrlen and
g_uncomp_hdrlen by 40; then copy protosize transport-header bytes from
dat + g_uncomp_hdrlen, advancing both cursors by protosize, or return
early (default branch) leaving the cursors at the post-IPv6 values. -/
def sixlowpan_compress_ipv6hdr (dat : List Nat)
    (frame_hdrlen uncomp_hdrlen : Nat) : CompressResult :=
  let fh := frame_hdrlen + SIXLOWPAN_IPV6_HDR_LEN + IPv6_HDRLEN
  let uh := uncomp_hdrlen + IPv6_HDRLEN
  match protosize dat with
  | none => ⟨SIXLOWPAN_DISPATCH_IPV6 :: dat.take IPv6_HDRLEN, fh, uh⟩
  | some ps =>
      ⟨SIXLOWPAN_DISPATCH_IPV6 :: (dat.take IPv6_HDRLEN ++ (dat.drop uh).take ps),
       fh + ps, uh + ps⟩

/-- A frame buffer (struct iob_s) as the queuer leaves it: body is the
byte region written after the MAC header, i.e. the bytes at offsets
[framer_hdrlen, io_len); len is io_len and pktlen is io_pktlen. -/
structure Frame where
  body : List Nat
  len : Nat
  pktlen : Nat
deriving DecidableEq

/-- The parts of the interface state (ieee802154_driver_s) the queuer
reads and writes: the 16-bit datagram tag i_dgramtag and the output
list i_framelist. -/
structure Ieee where
  dgramtag : Nat
  framelist : List Frame
deriving DecidableEq

/-- Result of sixlowpan_queue_frames: the return code, the final
i_framelist, and the final i_dgramtag. -/
structure QueueResult where
  ret : Int
  framelist : List Frame
  dgramtag : Nat
deriving DecidableEq

/-- The FRAGN base paysize (CONFIG_NET_6LOWPAN_FRAMELEN - fragn_hdrlen)
& SIXLOWPAN_DISPATCH_FRAG_MASK, computed in C int arithmetic (the
subtraction may be negative, two of its complement bit pattern being
what the mask sees) and assigned to a uint16_t.  Masking with 0xf8 and
truncating to 16 bits commute, so this is modelled as: reduce the int
difference modulo 2^16 (the uint16 conversion of a two-of-complement
value), then take the bitwise and with 0xf8. -/
def fragnBase (framelen fragn_hdrlen : Nat) : Nat :=
  Nat.land ((((framelen : Int) - (fragn_hdrlen : Int)) % 65536).toNat)
    SIXLOWPAN_DISPATCH_FRAG_MASK

/-- The paysize of one FRAGN fragment: the base, truncated to the
remaining bytes for the last fragment. -/
def fragnPaysize (framelen fragn_hdrlen rem : Nat) : Nat :=
  if rem < fragnBase framelen fragn_hdrlen then rem
  else fragnBase framelen fragn_hdrlen

/-- The FRAG1 paysize (CONFIG_NET_6LOWPAN_FRAMELEN - g_frame_hdrlen)
& ~7, computed in C int arithmetic and assigned to a uint16_t.  The
low 16 bits of (v & ~7) are (v mod 2^16) & 0xfff8, so this is
modelled as: reduce the int difference modulo 2^16 (the uint16
conversion of a two-of-complement value), then clear the low three
bits with the 16-bit image 0xfff8 of the mask ~7. -/
def frag1Paysize (framelen fh1 : Nat) : Nat :=
  Nat.land ((((framelen : Int) - (fh1 : Int)) % 65536).toNat) 0xfff8

/-- One FRAGN frame as built in the loop body: 5-byte FRAGN header
(dispatch|size, tag, offset byte outlen >> 3), then the compressed
headers copied from the first frame, then paysize payload bytes from
buf + outlen.  io_len = paysize + fragn_hdrlen (uint16). -/
def fragnFrame (framer compLen : Nat) (compBytes buf : List Nat)
    (pktlenField tag outlen paysize : Nat) : Frame :=
  { body := hi8 (SIXLOWPAN_DISPATCH_FRAGN <<< 8 ||| pktlenField) ::
            lo8 (SIXLOWPAN_DISPATCH_FRAGN <<< 8 ||| pktlenField) ::
            hi8 tag :: lo8 tag :: u8 (outlen >>> 3) ::
            (compBytes ++ (buf.drop outlen).take paysize),
    len := u16 (paysize + (framer + compLen + SIXLOWPAN_FRAGN_HDR_LEN)),
    pktlen := 0 }

/-- The FRAG1 frame: 4-byte FRAG1 header (dispatch|size, tag), then the
compressed headers (shifted right by 4 by the memmove), then paysize
payload bytes from buf.  io_len = paysize + g_frame_hdrlen (uint16);
io_pktlen is filled in by the queuer. -/
def frag1Frame (framer compLen : Nat) (compBytes buf : List Nat)
    (pktlenField tag paysize : Nat) : Frame :=
  { body := hi8 (SIXLOWPAN_DISPATCH_FRAG1 <<< 8 ||| pktlenField) ::
            lo8 (SIXLOWPAN_DISPATCH_FRAG1 <<< 8 ||| pktlenField) ::
            hi8 tag :: lo8 tag ::
            (compBytes ++ buf.take paysize),
    len := u16 (paysize + (framer + compLen + SIXLOWPAN_FRAG1_HDR_LEN)),
    pktlen := 0 }

/-- The while (outlen < buflen) FRAGN loop, with explicit fuel: none
models the C loop never reaching the loop exit (which can happen when
the computed paysize is 0).  outlen is a uint16_t in the source, so
the update reduces modulo 2^16. -/
def fragnLoop (framelen framer compLen : Nat) (compBytes buf : List Nat)
    (pktlenField tag buflen : Nat) : Nat → Nat → Option (List Frame)
  | _, 0 => none
  | outlen, fuel + 1 =>
    if outlen < buflen then
      match fragnLoop framelen framer compLen compBytes buf pktlenField tag buflen
              (u16 (outlen + fragnPaysize framelen
                      (framer + compLen + SIXLOWPAN_FRAGN_HDR_LEN) (buflen - outlen))) fuel with
      | none => none
      | some fs =>
          some (fragnFrame framer compLen compBytes buf pktlenField tag outlen
                  (fragnPaysize framelen (framer + compLen + SIXLOWPAN_FRAGN_HDR_LEN)
                    (buflen - outlen)) :: fs)
    else some []

/-- The head frame of a fragmented send: io_pktlen starts at the head
io_len and accumulates (modulo 2^16) the io_len of every following
fragment, exactly as the loop updates i_framelist->io_pktlen. -/
def withPktlen (f : Frame) (fs : List Frame) : Frame :=
  { f with pktlen := fs.foldl (fun a g => u16 (a + g.len)) f.len }

/-- sixlowpan_queue_frames, translated from the source, parameterised
over the outcome of the external collaborators: sendHdrlen is the
(possibly negative) result of sixlowpan_send_hdrlen; compLen /
uncompLen / compBytes are the frame bytes written, the uncompressed
bytes covered and the written byte values of the compression step
(g_frame_hdrlen - framer_hdrlen and g_uncomp_hdrlen after step 8).
fragEnabled models CONFIG_NET_6LOWPAN_FRAG.  The fragmentation
decision buflen > (CONFIG_NET_6LOWPAN_FRAMELEN - g_frame_hdrlen)
compares the size_t buflen with the int difference converted to
size_t, hence the reduction modulo 2^64.  Returns none when the FRAGN
loop never terminates. -/
def sixlowpan_queue_frames (framelen : Nat) (fragEnabled : Bool)
    (sendHdrlen : Int) (compLen uncompLen : Nat) (compBytes buf : List Nat)
    (buflen : Nat) (ieee : Ieee) : Option QueueResult :=
  if sendHdrlen < 0 then
    some { ret := sendHdrlen, framelist := ieee.framelist, dgramtag := ieee.dgramtag }
  else if (buflen : Int) >
      ((framelen : Int) - ((sendHdrlen.toNat + compLen : Nat) : Int)) % (2 ^ 64) then
    if fragEnabled then
      match fragnLoop framelen sendHdrlen.toNat compLen compBytes buf
              (u16 (buflen + uncompLen)) ieee.dgramtag buflen
              (frag1Paysize framelen (sendHdrlen.toNat + compLen + SIXLOWPAN_FRAG1_HDR_LEN))
              (buflen + 1) with
      | none => none
      | some fs =>
          some { ret := OK,
                 framelist :=
                   withPktlen
                     (frag1Frame sendHdrlen.toNat compLen compBytes buf
                       (u16 (buflen + uncompLen)) ieee.dgramtag
                       (frag1Paysize framelen
                         (sendHdrlen.toNat + compLen + SIXLOWPAN_FRAG1_HDR_LEN))) fs :: fs,
                 dgramtag := u16 (ieee.dgramtag + 1) }
    else
      some { ret := -E2BIG, framelist := ieee.framelist, dgramtag := ieee.dgramtag }
  else
    some { ret := OK,
           framelist := [{ body := compBytes ++ buf.take buflen,
                           len := u16 (buflen + (sendHdrlen.toNat + compLen)),
                           pktlen := u16 (buflen + (sendHdrlen.toNat + compLen)) }],
           dgramtag := ieee.dgramtag }

/-- The queuer in the CONFIG_NET_6LOWPAN_COMPRESSION_IPv6 build (the
spec end-to-end scenario build): the compression step is
sixlowpan_compress_ipv6hdr applied to the datagram at cursor values
g_frame_hdrlen = framer_hdrlen and g_uncomp_hdrlen = 0. -/
def sixlowpan_queue_frames_ipv6 (framelen : Nat) (fragEnabled : Bool)
    (sendHdrlen : Int) (buf : List Nat) (buflen : Nat) (ieee : Ieee) :
    Option QueueResult :=
  let c := sixlowpan_compress_ipv6hdr buf sendHdrlen.toNat 0
  sixlowpan_queue_frames framelen fragEnabled sendHdrlen
    (c.frame_hdrlen - sendHdrlen.toNat) c.uncomp_hdrlen c.written buf buflen ieee

/-- The offset-byte discipline as written in the source: each FRAGN
body carries at index 4 the byte u8 (outlen >>> 3) for the cumulative
outlen at the moment the fragment was built. -/
def offsetsOK (fragn_hdrlen : Nat) : List Frame → Nat → Bool
  | [], _ => true
  | f :: fs, outlen =>
      (f.body.getD 4 0 == u8 (outlen >>> 3)) &&
      offsetsOK fragn_hdrlen fs (outlen + (f.len - fragn_hdrlen))

/-- The offset-byte discipline as the claim states it: each FRAGN
offset byte equals (sum of payload bytes of all earlier fragments,
FRAG1 included) divided by 8. -/
def offsetsDiv8 (fragn_hdrlen : Nat) : List Frame → Nat → Bool
  | [], _ => true
  | f :: fs, prior =>
      (f.body.getD 4 0 == prior / 8) &&
      offsetsDiv8 fragn_hdrlen fs (prior + (f.len - fragn_hdrlen))

/-- Concrete 68-byte UDP/IPv6 datagram of spec scenario 1: 40-byte IPv6
header (proto byte = 17 at offset 6), 8-byte UDP header, 20 payload
bytes. -/
def udpDat68 : List Nat := (List.replicate 68 0).set 6 17

/-! Helper lemmas about the machine arithmetic of the embedding. -/

set_option maxRecDepth 2000 in
lemma nat_land_248 : ∀ x, x < 256 → Nat.land x 248 = x - x % 8 := by decide

set_option maxRecDepth 2000 in
lemma nat_land_fff8 : ∀ x, x < 256 → Nat.land x 0xfff8 = x - x % 8 := by decide

lemma int_toNat_mod (x : Nat) (h : x < 65536) : (((x : Int)) % 65536).toNat = x := by omega

lemma fragnBase_eq (framelen fragn : Nat) (h : fragn ≤ framelen)
    (h2 : framelen - fragn < 256) :
    fragnBase framelen fragn = (framelen - fragn) - (framelen - fragn) % 8 := by
  unfold fragnBase
  have hc : (framelen : Int) - (fragn : Int) = ((framelen - fragn : Nat) : Int) := by omega
  rw [hc, int_toNat_mod _ (by omega)]
  exact nat_land_248 _ h2

lemma frag1Paysize_eq (framelen fh1 : Nat) (h : fh1 ≤ framelen)
    (h2 : framelen - fh1 < 256) :
    frag1Paysize framelen fh1 = (framelen - fh1) - (framelen - fh1) % 8 := by
  unfold frag1Paysize
  have hc : (framelen : Int) - (fh1 : Int) = ((framelen - fh1 : Nat) : Int) := by omega
  rw [hc, int_toNat_mod _ (by omega)]
  exact nat_land_fff8 _ h2

lemma decision_iff (framelen fh buflen : Nat) (h : fh ≤ framelen)
    (h2 : framelen < 2 ^ 64) :
    ((buflen : Int) > ((framelen : Int) - ((fh : Nat) : Int)) % (2 ^ 64)) ↔
      framelen - fh < buflen := by
  rw [Int.emod_eq_of_lt (by omega) (by omega)]
  omega

lemma hi8_eq_div (v : Nat) : hi8 v = v % 65536 / 256 := by
  unfold hi8 u8 u16
  rw [Nat.shiftRight_eq_div_pow]
  omega

lemma field_eq (v : Nat) : (hi8 v % 8) * 256 + lo8 v = v % 2048 := by
  rw [hi8_eq_div]
  unfold lo8 u8
  omega

lemma lor_mod_2048 (a pf : Nat) (ha : a % 2048 = 0) (hpf : pf < 2048) :
    (a ||| pf) % 2048 = pf := by
  have h2 : (2048 : Nat) = 2 ^ 11 := rfl
  have haz : ∀ i, i < 11 → a.testBit i = false := by
    intro i hi
    have h := Nat.testBit_mod_two_pow a 11 i
    rw [← h2, ha, Nat.zero_testBit] at h
    simpa [hi] using h.symm
  apply Nat.eq_of_testBit_eq
  intro i
  rw [h2, Nat.testBit_mod_two_pow, Nat.testBit_or]
  by_cases hi : i < 11
  · simp [hi, haz i hi]
  · have hpfi : pf.testBit i = false := by
      apply Nat.testBit_lt_two_pow
      calc pf < 2 ^ 11 := by omega
        _ ≤ 2 ^ i := Nat.pow_le_pow_right (by omega) (by omega)
    simp [hi, hpfi]

lemma tag_bytes (t : Nat) : hi8 t * 256 + lo8 t = t % 65536 := by
  rw [hi8_eq_div]; unfold lo8 u8; omega

lemma fragnLoop_spec (framelen framer compLen : Nat) (compBytes buf : List Nat)
    (pf tag buflen : Nat)
    (hcap : framer + compLen + 13 ≤ framelen) (hflen : framelen ≤ 255)
    (hbuf : buflen < 65536) :
    ∀ fuel outlen, outlen ≤ buflen → buflen - outlen < fuel →
      ∃ fs, fragnLoop framelen framer compLen compBytes buf pf tag buflen outlen fuel
              = some fs ∧
        (fs.map (fun f => f.len - (framer + compLen + 5))).sum = buflen - outlen ∧
        (∀ f ∈ fs, framer + compLen + 5 ≤ f.len ∧ f.len ≤ framelen) ∧
        (∀ f ∈ fs,
          f.body.getD 0 0 = hi8 (SIXLOWPAN_DISPATCH_FRAGN <<< 8 ||| pf) ∧
          f.body.getD 1 0 = lo8 (SIXLOWPAN_DISPATCH_FRAGN <<< 8 ||| pf) ∧
          f.body.getD 2 0 = hi8 tag ∧ f.body.getD 3 0 = lo8 tag) ∧
        offsetsOK (framer + compLen + 5) fs outlen = true ∧
        (∀ f ∈ fs.dropLast, (f.len - (framer + compLen + 5)) % 8 = 0) ∧
        (fs = [] ↔ buflen ≤ outlen) := by
  intro fuel
  induction fuel with
  | zero => intro outlen h1 h2; omega
  | succ fuel ih =>
    intro outlen h1 h2
    by_cases hlt : outlen < buflen
    · have h5 : SIXLOWPAN_FRAGN_HDR_LEN = 5 := rfl
      have hfragn5 : framer + compLen + 5 ≤ framelen := by omega
      have hbase : fragnBase framelen (framer + compLen + 5) =
          (framelen - (framer + compLen + 5)) -
            (framelen - (framer + compLen + 5)) % 8 :=
        fragnBase_eq framelen (framer + compLen + 5) hfragn5 (by omega)
      have hb8 : 8 ≤ fragnBase framelen (framer + compLen + 5) := by
        rw [hbase]; omega
      have hbx : fragnBase framelen (framer + compLen + 5) ≤
          framelen - (framer + compLen + 5) := by
        rw [hbase]; omega
      have hpaydef : fragnPaysize framelen (framer + compLen + SIXLOWPAN_FRAGN_HDR_LEN)
            (buflen - outlen) =
          if buflen - outlen < fragnBase framelen (framer + compLen + 5) then
            buflen - outlen
          else fragnBase framelen (framer + compLen + 5) := by
        rw [h5]; rfl
      set paysize := fragnPaysize framelen (framer + compLen + SIXLOWPAN_FRAGN_HDR_LEN)
        (buflen - outlen) with hps
      have hpay1 : 1 ≤ paysize := by
        rw [hpaydef]; split <;> omega
      have hpayrem : paysize ≤ buflen - outlen := by
        rw [hpaydef]; split <;> omega
      have hpayx : paysize ≤ framelen - (framer + compLen + 5) := by
        rw [hpaydef]; split <;> omega
      have hu16 : u16 (outlen + paysize) = outlen + paysize := by
        unfold u16; omega
      obtain ⟨fs, hfs, hsum, hbd, hhdr, hoff, hdrop, hnil⟩ :=
        ih (outlen + paysize) (by omega) (by omega)
      refine ⟨fragnFrame framer compLen compBytes buf pf tag outlen paysize :: fs,
        ?_, ?_, ?_, ?_, ?_, ?_, ?_⟩
      · unfold fragnLoop
        rw [if_pos hlt, hu16, hfs]
      · have hlenfr : (fragnFrame framer compLen compBytes buf pf tag outlen paysize).len
            = paysize + (framer + compLen + 5) := by
          simp only [fragnFrame, h5, u16]
          omega
        simp only [List.map_cons, List.sum_cons, hlenfr, hsum]
        omega
      · intro f hf
        rcases List.mem_cons.mp hf with rfl | hf
        · constructor
          · simp only [fragnFrame, h5, u16]; omega
          · simp only [fragnFrame, h5, u16]; omega
        · exact hbd f hf
      · intro f hf
        rcases List.mem_cons.mp hf with rfl | hf
        · refine ⟨?_, ?_, ?_, ?_⟩ <;> simp [fragnFrame]
        · exact hhdr f hf
      · have hlenfr : (fragnFrame framer compLen compBytes buf pf tag outlen paysize).len
            = paysize + (framer + compLen + 5) := by
          simp only [fragnFrame, h5, u16]
          omega
        simp only [offsetsOK, Bool.and_eq_true, beq_iff_eq, hlenfr]
        constructor
        · simp [fragnFrame]
        · have : paysize + (framer + compLen + 5) - (framer + compLen + 5) = paysize := by
            omega
          rw [this]
          exact hoff
      · intro f hf
        cases fs with
        | nil => simp at hf
        | cons g gs =>
          rw [List.dropLast_cons_of_ne_nil (by simp)] at hf
          rcases List.mem_cons.mp hf with rfl | hf
          · have hne : ¬ buflen ≤ outlen + paysize := by
              intro hc
              exact absurd (hnil.mpr hc) (by simp)
            have hpayb : paysize = fragnBase framelen (framer + compLen + 5) := by
              by_cases hcnd : buflen - outlen < fragnBase framelen (framer + compLen + 5)
              · exfalso
                apply hne
                have hpeq : paysize = buflen - outlen := by
                  rw [hpaydef, if_pos hcnd]
                omega
              · rw [hpaydef, if_neg hcnd]
            have hlenfr : (fragnFrame framer compLen compBytes buf pf tag outlen paysize).len
                = paysize + (framer + compLen + 5) := by
              simp only [fragnFrame, h5, u16]
              omega
            rw [hlenfr]
            have : paysize + (framer + compLen + 5) - (framer + compLen + 5) = paysize := by
              omega
            rw [this, hpayb, hbase]
            omega
          · exact hdrop f hf
      · constructor
        · intro hc
          exact absurd hc (List.cons_ne_nil _ _)
        · intro hc
          exact absurd hc (by omega)
    · have houtb : outlen = buflen := by omega
      refine ⟨[], ?_, by simp [houtb], by simp, by simp, by simp [offsetsOK], by simp,
        by simp [houtb]⟩
      unfold fragnLoop
      rw [if_neg hlt]

lemma queue_frag_spec (framelen : Nat) (sendHdrlen : Int) (compLen uncompLen : Nat)
    (compBytes buf : List Nat) (buflen : Nat) (ieee : Ieee)
    (h0 : 0 ≤ sendHdrlen) (hflen : framelen ≤ 255)
    (hcap : sendHdrlen.toNat + compLen + 13 ≤ framelen)
    (hdec : framelen - (sendHdrlen.toNat + compLen) < buflen)
    (hsize : buflen + uncompLen < 2048) :
    ∃ tl,
      sixlowpan_queue_frames framelen true sendHdrlen compLen uncompLen compBytes buf
          buflen ieee
        = some { ret := OK,
                 framelist :=
                   withPktlen (frag1Frame sendHdrlen.toNat compLen compBytes buf
                     (u16 (buflen + uncompLen)) ieee.dgramtag
                     (frag1Paysize framelen
                       (sendHdrlen.toNat + compLen + SIXLOWPAN_FRAG1_HDR_LEN))) tl :: tl,
                 dgramtag := u16 (ieee.dgramtag + 1) } ∧
      (tl.map (fun f => f.len - (sendHdrlen.toNat + compLen + 5))).sum
        = buflen - frag1Paysize framelen (sendHdrlen.toNat + compLen + 4) ∧
      (∀ f ∈ tl, sendHdrlen.toNat + compLen + 5 ≤ f.len ∧ f.len ≤ framelen) ∧
      (∀ f ∈ tl,
        f.body.getD 0 0 = hi8 (SIXLOWPAN_DISPATCH_FRAGN <<< 8 ||| u16 (buflen + uncompLen)) ∧
        f.body.getD 1 0 = lo8 (SIXLOWPAN_DISPATCH_FRAGN <<< 8 ||| u16 (buflen + uncompLen)) ∧
        f.body.getD 2 0 = hi8 ieee.dgramtag ∧ f.body.getD 3 0 = lo8 ieee.dgramtag) ∧
      offsetsOK (sendHdrlen.toNat + compLen + 5) tl
        (frag1Paysize framelen (sendHdrlen.toNat + compLen + 4)) = true ∧
      (∀ f ∈ tl.dropLast, (f.len - (sendHdrlen.toNat + compLen + 5)) % 8 = 0) ∧
      frag1Paysize framelen (sendHdrlen.toNat + compLen + 4)
        = (framelen - (sendHdrlen.toNat + compLen + 4)) -
            (framelen - (sendHdrlen.toNat + compLen + 4)) % 8 ∧
      tl ≠ [] := by
  have h4 : SIXLOWPAN_FRAG1_HDR_LEN = 4 := rfl
  have hps1 : frag1Paysize framelen (sendHdrlen.toNat + compLen + 4)
      = (framelen - (sendHdrlen.toNat + compLen + 4)) -
          (framelen - (sendHdrlen.toNat + compLen + 4)) % 8 :=
    frag1Paysize_eq framelen (sendHdrlen.toNat + compLen + 4) (by omega) (by omega)
  have hps1le : frag1Paysize framelen (sendHdrlen.toNat + compLen + 4) ≤ buflen := by
    rw [hps1]; omega
  have hps1lt : frag1Paysize framelen (sendHdrlen.toNat + compLen + 4) < buflen := by
    rw [hps1]; omega
  obtain ⟨fs, hfs, hsum, hbd, hhdr, hoff, hdrop, hnil⟩ :=
    fragnLoop_spec framelen sendHdrlen.toNat compLen compBytes buf
      (u16 (buflen + uncompLen)) ieee.dgramtag buflen hcap hflen (by omega)
      (buflen + 1) (frag1Paysize framelen (sendHdrlen.toNat + compLen + 4))
      hps1le (by omega)
  refine ⟨fs, ?_, ?_, hbd, hhdr, hoff, hdrop, hps1, ?_⟩
  · unfold sixlowpan_queue_frames
    rw [if_neg (by omega)]
    rw [if_pos ((decision_iff framelen (sendHdrlen.toNat + compLen) buflen (by omega)
      (by omega)).mpr hdec)]
    rw [if_pos rfl]
    rw [h4, hfs]
  · rw [hsum]
  · intro hemp
    rw [hemp] at hnil
    have := hnil.mp rfl
    omega

end SixlowpanModel
namespace SixlowpanModel

lemma field_frag1 (pf : Nat) (h : pf < 2048) :
    (hi8 (SIXLOWPAN_DISPATCH_FRAG1 <<< 8 ||| pf) % 8) * 256 +
      lo8 (SIXLOWPAN_DISPATCH_FRAG1 <<< 8 ||| pf) = pf := by
  rw [field_eq]
  exact lor_mod_2048 _ _ (by decide) h

lemma field_fragn (pf : Nat) (h : pf < 2048) :
    (hi8 (SIXLOWPAN_DISPATCH_FRAGN <<< 8 ||| pf) % 8) * 256 +
      lo8 (SIXLOWPAN_DISPATCH_FRAGN <<< 8 ||| pf) = pf := by
  rw [field_eq]
  exact lor_mod_2048 _ _ (by decide) h

lemma withPktlen_len (f : Frame) (fs : List Frame) : (withPktlen f fs).len = f.len := rfl

lemma withPktlen_body (f : Frame) (fs : List Frame) : (withPktlen f fs).body = f.body := rfl

/-- C1: for every datagram the queuer fragments, uncomp_hdrlen plus the
FRAG1 payload plus the FRAGN payloads equals the 11-bit datagram-size
value (buflen + uncomp_hdrlen) encoded in the fragment header, and the
FRAGN loop terminates having consumed exactly buflen bytes of buf. -/
theorem c1_frag_accounting (framelen : Nat) (sendHdrlen : Int)
    (compLen uncompLen : Nat) (compBytes buf : List Nat) (buflen : Nat) (ieee : Ieee)
    (h0 : 0 ≤ sendHdrlen) (hflen : framelen ≤ 255)
    (hcap : sendHdrlen.toNat + compLen + 13 ≤ framelen)
    (hdec : framelen - (sendHdrlen.toNat + compLen) < buflen)
    (hsize : buflen + uncompLen < 2048) :
    ∃ hd tl,
      sixlowpan_queue_frames framelen true sendHdrlen compLen uncompLen compBytes buf
          buflen ieee
        = some { ret := OK, framelist := hd :: tl, dgramtag := u16 (ieee.dgramtag + 1) } ∧
      (hd.len - (sendHdrlen.toNat + compLen + 4)) +
        (tl.map (fun f => f.len - (sendHdrlen.toNat + compLen + 5))).sum = buflen ∧
      uncompLen + ((hd.len - (sendHdrlen.toNat + compLen + 4)) +
          (tl.map (fun f => f.len - (sendHdrlen.toNat + compLen + 5))).sum)
        = (hd.body.getD 0 0 % 8) * 256 + hd.body.getD 1 0 := by
  obtain ⟨tl, hq, hsum, hbd, hhdr, hoff, hdrop, hps1, hne⟩ :=
    queue_frag_spec framelen sendHdrlen compLen uncompLen compBytes buf buflen ieee
      h0 hflen hcap hdec hsize
  have h4 : SIXLOWPAN_FRAG1_HDR_LEN = 4 := rfl
  refine ⟨_, tl, hq, ?_, ?_⟩
  all_goals
    rw [withPktlen_len]
  · have hlen : (frag1Frame sendHdrlen.toNat compLen compBytes buf
        (u16 (buflen + uncompLen)) ieee.dgramtag
        (frag1Paysize framelen (sendHdrlen.toNat + compLen + SIXLOWPAN_FRAG1_HDR_LEN))).len
        = frag1Paysize framelen (sendHdrlen.toNat + compLen + 4)
            + (sendHdrlen.toNat + compLen + 4) := by
      simp only [frag1Frame, h4, u16]
      rw [hps1]
      omega
    rw [hlen, hsum, hps1]
    omega
  · have hlen : (frag1Frame sendHdrlen.toNat compLen compBytes buf
        (u16 (buflen + uncompLen)) ieee.dgramtag
        (frag1Paysize framelen (sendHdrlen.toNat + compLen + SIXLOWPAN_FRAG1_HDR_LEN))).len
        = frag1Paysize framelen (sendHdrlen.toNat + compLen + 4)
            + (sendHdrlen.toNat + compLen + 4) := by
      simp only [frag1Frame, h4, u16]
      rw [hps1]
      omega
    rw [withPktlen_body, hlen, hsum]
    have hb0 : (frag1Frame sendHdrlen.toNat compLen compBytes buf
        (u16 (buflen + uncompLen)) ieee.dgramtag
        (frag1Paysize framelen (sendHdrlen.toNat + compLen + SIXLOWPAN_FRAG1_HDR_LEN))).body.getD 0 0
        = hi8 (SIXLOWPAN_DISPATCH_FRAG1 <<< 8 ||| u16 (buflen + uncompLen)) := by
      simp [frag1Frame]
    have hb1 : (frag1Frame sendHdrlen.toNat compLen compBytes buf
        (u16 (buflen + uncompLen)) ieee.dgramtag
        (frag1Paysize framelen (sendHdrlen.toNat + compLen + SIXLOWPAN_FRAG1_HDR_LEN))).body.getD 1 0
        = lo8 (SIXLOWPAN_DISPATCH_FRAG1 <<< 8 ||| u16 (buflen + uncompLen)) := by
      simp [frag1Frame]
    rw [hb0, hb1]
    have hpf : u16 (buflen + uncompLen) = buflen + uncompLen := by
      unfold u16; omega
    rw [hpf, field_frag1 _ (by omega)]
    omega

/-- Witness for C1 at a concrete fragmented send: capacity 127, MAC
header 11 bytes, 49 compressed-header bytes covering 48 uncompressed
bytes, 68-byte payload buffer. -/
theorem c1_frag_accounting_witness :
    ∃ hd tl,
      sixlowpan_queue_frames 127 true 11 49 48 (List.replicate 49 7)
          (List.replicate 68 9) 68 ⟨5, []⟩
        = some { ret := OK, framelist := hd :: tl, dgramtag := u16 (5 + 1) } ∧
      (hd.len - (64)) + (tl.map (fun f => f.len - 65)).sum = 68 ∧
      48 + ((hd.len - 64) + (tl.map (fun f => f.len - 65)).sum)
        = (hd.body.getD 0 0 % 8) * 256 + hd.body.getD 1 0 := by
  have h := c1_frag_accounting 127 11 49 48 (List.replicate 49 7)
    (List.replicate 68 9) 68 ⟨5, []⟩ (by decide) (by decide) (by decide) (by decide)
    (by decide)
  exact h

end SixlowpanModel
namespace SixlowpanModel

/-- C3: in every fragmented output the FRAG1 frame and all FRAGN frames
carry the same 11-bit datagram-size field (buflen + uncomp_hdrlen) and
the same 16-bit tag, namely the interface tag at entry (the post-loop
increment happens only afterwards). -/
theorem c3_shared_size_and_tag (framelen : Nat) (sendHdrlen : Int)
    (compLen uncompLen : Nat) (compBytes buf : List Nat) (buflen : Nat) (ieee : Ieee)
    (h0 : 0 ≤ sendHdrlen) (hflen : framelen ≤ 255)
    (hcap : sendHdrlen.toNat + compLen + 13 ≤ framelen)
    (hdec : framelen - (sendHdrlen.toNat + compLen) < buflen)
    (hsize : buflen + uncompLen < 2048) (htag : ieee.dgramtag < 65536) :
    ∃ fs,
      sixlowpan_queue_frames framelen true sendHdrlen compLen uncompLen compBytes buf
          buflen ieee
        = some { ret := OK, framelist := fs, dgramtag := u16 (ieee.dgramtag + 1) } ∧
      fs ≠ [] ∧
      ∀ f ∈ fs,
        (f.body.getD 0 0 % 8) * 256 + f.body.getD 1 0 = buflen + uncompLen ∧
        f.body.getD 2 0 * 256 + f.body.getD 3 0 = ieee.dgramtag := by
  obtain ⟨tl, hq, hsum, hbd, hhdr, hoff, hdrop, hps1, hne⟩ :=
    queue_frag_spec framelen sendHdrlen compLen uncompLen compBytes buf buflen ieee
      h0 hflen hcap hdec hsize
  have hpf : u16 (buflen + uncompLen) = buflen + uncompLen := by
    unfold u16; omega
  refine ⟨_, hq, by simp, ?_⟩
  intro f hf
  rcases List.mem_cons.mp hf with rfl | hf
  · constructor
    · rw [withPktlen_body]
      have hb0 : (frag1Frame sendHdrlen.toNat compLen compBytes buf
          (u16 (buflen + uncompLen)) ieee.dgramtag
          (frag1Paysize framelen
            (sendHdrlen.toNat + compLen + SIXLOWPAN_FRAG1_HDR_LEN))).body.getD 0 0
          = hi8 (SIXLOWPAN_DISPATCH_FRAG1 <<< 8 ||| u16 (buflen + uncompLen)) := by
        simp [frag1Frame]
      have hb1 : (frag1Frame sendHdrlen.toNat compLen compBytes buf
          (u16 (buflen + uncompLen)) ieee.dgramtag
          (frag1Paysize framelen
            (sendHdrlen.toNat + compLen + SIXLOWPAN_FRAG1_HDR_LEN))).body.getD 1 0
          = lo8 (SIXLOWPAN_DISPATCH_FRAG1 <<< 8 ||| u16 (buflen + uncompLen)) := by
        simp [frag1Frame]
      rw [hb0, hb1, hpf, field_frag1 _ (by omega)]
    · rw [withPktlen_body]
      have hb2 : (frag1Frame sendHdrlen.toNat compLen compBytes buf
          (u16 (buflen + uncompLen)) ieee.dgramtag
          (frag1Paysize framelen
            (sendHdrlen.toNat + compLen + SIXLOWPAN_FRAG1_HDR_LEN))).body.getD 2 0
          = hi8 ieee.dgramtag := by
        simp [frag1Frame]
      have hb3 : (frag1Frame sendHdrlen.toNat compLen compBytes buf
          (u16 (buflen + uncompLen)) ieee.dgramtag
          (frag1Paysize framelen
            (sendHdrlen.toNat + compLen + SIXLOWPAN_FRAG1_HDR_LEN))).body.getD 3 0
          = lo8 ieee.dgramtag := by
        simp [frag1Frame]
      rw [hb2, hb3, tag_bytes]
      omega
  · obtain ⟨hf0, hf1, hf2, hf3⟩ := hhdr f hf
    constructor
    · rw [hf0, hf1, hpf, field_fragn _ (by omega)]
    · rw [hf2, hf3, tag_bytes]
      omega

/-- Witness for C3 at a concrete fragmented send. -/
theorem c3_shared_size_and_tag_witness :
    ∃ fs,
      sixlowpan_queue_frames 127 true 11 49 48 (List.replicate 49 7)
          (List.replicate 68 9) 68 ⟨9, []⟩
        = some { ret := OK, framelist := fs, dgramtag := u16 (9 + 1) } ∧
      fs ≠ [] ∧
      ∀ f ∈ fs,
        (f.body.getD 0 0 % 8) * 256 + f.body.getD 1 0 = 68 + 48 ∧
        f.body.getD 2 0 * 256 + f.body.getD 3 0 = 9 :=
  c3_shared_size_and_tag 127 11 49 48 (List.replicate 49 7) (List.replicate 68 9) 68
    ⟨9, []⟩ (by decide) (by decide) (by decide) (by decide) (by decide) (by decide)

/-- Bridge from the source form of the offset-byte discipline (u8 of
outlen >>> 3) to the spec form (prior payload divided by 8), valid
while the cumulative payload stays below 2048. -/
lemma offsetsOK_to_div8 (fragn buflen : Nat) (hb : buflen < 2048) :
    ∀ fs outlen, outlen ≤ buflen →
      (fs.map (fun f => f.len - fragn)).sum = buflen - outlen →
      offsetsOK fragn fs outlen = true → offsetsDiv8 fragn fs outlen = true := by
  intro fs
  induction fs with
  | nil => intro outlen _ _ _; rfl
  | cons f fs ih =>
    intro outlen h1 h2 h3
    simp only [offsetsOK, Bool.and_eq_true, beq_iff_eq] at h3
    obtain ⟨h31, h32⟩ := h3
    simp only [List.map_cons, List.sum_cons] at h2
    simp only [offsetsDiv8, Bool.and_eq_true, beq_iff_eq]
    constructor
    · rw [h31]
      unfold u8
      rw [Nat.shiftRight_eq_div_pow]
      omega
    · exact ih (outlen + (f.len - fragn)) (by omega) (by omega) h32

/-- C4: every non-final fragment carries a payload length divisible by
8, and each FRAGN offset byte equals the total payload carried by all
earlier fragments of the datagram divided by 8. -/
theorem c4_eight_byte_discipline (framelen : Nat) (sendHdrlen : Int)
    (compLen uncompLen : Nat) (compBytes buf : List Nat) (buflen : Nat) (ieee : Ieee)
    (h0 : 0 ≤ sendHdrlen) (hflen : framelen ≤ 255)
    (hcap : sendHdrlen.toNat + compLen + 13 ≤ framelen)
    (hdec : framelen - (sendHdrlen.toNat + compLen) < buflen)
    (hsize : buflen + uncompLen < 2048) :
    ∃ hd tl,
      sixlowpan_queue_frames framelen true sendHdrlen compLen uncompLen compBytes buf
          buflen ieee
        = some { ret := OK, framelist := hd :: tl, dgramtag := u16 (ieee.dgramtag + 1) } ∧
      (hd.len - (sendHdrlen.toNat + compLen + 4)) % 8 = 0 ∧
      (∀ f ∈ tl.dropLast, (f.len - (sendHdrlen.toNat + compLen + 5)) % 8 = 0) ∧
      offsetsDiv8 (sendHdrlen.toNat + compLen + 5) tl
        (hd.len - (sendHdrlen.toNat + compLen + 4)) = true := by
  obtain ⟨tl, hq, hsum, hbd, hhdr, hoff, hdrop, hps1, hne⟩ :=
    queue_frag_spec framelen sendHdrlen compLen uncompLen compBytes buf buflen ieee
      h0 hflen hcap hdec hsize
  have h4 : SIXLOWPAN_FRAG1_HDR_LEN = 4 := rfl
  have hlen : (withPktlen (frag1Frame sendHdrlen.toNat compLen compBytes buf
      (u16 (buflen + uncompLen)) ieee.dgramtag
      (frag1Paysize framelen (sendHdrlen.toNat + compLen + SIXLOWPAN_FRAG1_HDR_LEN))) tl).len
      = frag1Paysize framelen (sendHdrlen.toNat + compLen + 4)
          + (sendHdrlen.toNat + compLen + 4) := by
    rw [withPktlen_len]
    simp only [frag1Frame, h4, u16]
    rw [hps1]
    omega
  refine ⟨_, tl, hq, ?_, hdrop, ?_⟩
  · rw [hlen, hps1]
    omega
  · rw [hlen]
    have hrw : frag1Paysize framelen (sendHdrlen.toNat + compLen + 4)
        + (sendHdrlen.toNat + compLen + 4) - (sendHdrlen.toNat + compLen + 4)
        = frag1Paysize framelen (sendHdrlen.toNat + compLen + 4) := by omega
    rw [hrw]
    have hps1le : frag1Paysize framelen (sendHdrlen.toNat + compLen + 4) ≤ buflen := by
      rw [hps1]; omega
    exact offsetsOK_to_div8 (sendHdrlen.toNat + compLen + 5) buflen (by omega) tl
      (frag1Paysize framelen (sendHdrlen.toNat + compLen + 4)) hps1le hsum hoff

/-- Witness for C4 at a concrete fragmented send. -/
theorem c4_eight_byte_discipline_witness :
    ∃ hd tl,
      sixlowpan_queue_frames 127 true 11 49 48 (List.replicate 49 7)
          (List.replicate 68 9) 68 ⟨3, []⟩
        = some { ret := OK, framelist := hd :: tl, dgramtag := u16 (3 + 1) } ∧
      (hd.len - 64) % 8 = 0 ∧
      (∀ f ∈ tl.dropLast, (f.len - 65) % 8 = 0) ∧
      offsetsDiv8 65 tl (hd.len - 64) = true :=
  c4_eight_byte_discipline 127 11 49 48 (List.replicate 49 7) (List.replicate 68 9) 68
    ⟨3, []⟩ (by decide) (by decide) (by decide) (by decide) (by decide)

end SixlowpanModel
namespace SixlowpanModel

/-- C5: the datagram tag increments by exactly 1 (mod 2^16) on a
terminating fragmented send and is unchanged on every other
terminating path (single-frame send, too-big failure). -/
theorem c5_tag_increment (framelen : Nat) (fragEnabled : Bool) (sendHdrlen : Int)
    (compLen uncompLen : Nat) (compBytes buf : List Nat) (buflen : Nat) (ieee : Ieee)
    (r : QueueResult) (h0 : 0 ≤ sendHdrlen)
    (hr : sixlowpan_queue_frames framelen fragEnabled sendHdrlen compLen uncompLen
            compBytes buf buflen ieee = some r) :
    r.dgramtag =
      if ((buflen : Int) >
            ((framelen : Int) - ((sendHdrlen.toNat + compLen : Nat) : Int)) % (2 ^ 64))
          ∧ fragEnabled = true
      then u16 (ieee.dgramtag + 1) else ieee.dgramtag := by
  unfold sixlowpan_queue_frames at hr
  rw [if_neg (by omega)] at hr
  by_cases hdec : ((buflen : Int) >
      ((framelen : Int) - ((sendHdrlen.toNat + compLen : Nat) : Int)) % (2 ^ 64))
  · rw [if_pos hdec] at hr
    cases fragEnabled with
    | true =>
      rw [if_pos rfl] at hr
      rw [if_pos ⟨hdec, rfl⟩]
      cases hloop : fragnLoop framelen sendHdrlen.toNat compLen compBytes buf
          (u16 (buflen + uncompLen)) ieee.dgramtag buflen
          (frag1Paysize framelen (sendHdrlen.toNat + compLen + SIXLOWPAN_FRAG1_HDR_LEN))
          (buflen + 1) with
      | none => rw [hloop] at hr; cases hr
      | some fs =>
        rw [hloop] at hr
        obtain rfl := Option.some.inj hr
        rfl
    | false =>
      rw [if_neg (by simp)] at hr
      rw [if_neg (by simp)]
      obtain rfl := Option.some.inj hr
      rfl
  · rw [if_neg hdec] at hr
    rw [if_neg (by intro hc; exact hdec hc.1)]
    obtain rfl := Option.some.inj hr
    rfl

/-- Witness for C5 at a concrete non-fragmented send. -/
theorem c5_tag_increment_witness :
    ({ ret := OK, framelist := [{ body := [1, 2, 3, 9, 9, 9, 9, 9], len := 10, pktlen := 10 }],
       dgramtag := 7 } : QueueResult).dgramtag =
      if (((5 : Nat) : Int) >
            (((30 : Nat) : Int) - (((2 : Int).toNat + 3 : Nat) : Int)) % (2 ^ 64))
          ∧ (true : Bool) = true
      then u16 (7 + 1) else 7 :=
  c5_tag_increment 30 true 2 3 4 [1, 2, 3] [9, 9, 9, 9, 9] 5 ⟨7, []⟩
    { ret := OK, framelist := [{ body := [1, 2, 3, 9, 9, 9, 9, 9], len := 10, pktlen := 10 }],
      dgramtag := 7 } (by decide) (by decide)

/-- Every frame the FRAGN loop emits has io_len at most the frame
capacity, as soon as the MAC header plus compressed headers plus the
5-byte FRAGN header fit in the capacity (capacity at most 255). -/
lemma fragnLoop_len_le (framelen framer compLen : Nat) (compBytes buf : List Nat)
    (pf tag buflen : Nat) (hflen : framelen ≤ 255)
    (hcap : framer + compLen + 5 ≤ framelen) :
    ∀ fuel outlen fs,
      fragnLoop framelen framer compLen compBytes buf pf tag buflen outlen fuel = some fs →
      ∀ f ∈ fs, f.len ≤ framelen := by
  intro fuel
  induction fuel with
  | zero => intro outlen fs h; cases h
  | succ fuel ih =>
    intro outlen fs h
    by_cases hlt : outlen < buflen
    · unfold fragnLoop at h
      rw [if_pos hlt] at h
      cases hloop : fragnLoop framelen framer compLen compBytes buf pf tag buflen
          (u16 (outlen + fragnPaysize framelen
              (framer + compLen + SIXLOWPAN_FRAGN_HDR_LEN) (buflen - outlen))) fuel with
      | none => rw [hloop] at h; cases h
      | some gs =>
        rw [hloop] at h
        obtain rfl := Option.some.inj h
        intro f hf
        rcases List.mem_cons.mp hf with rfl | hf
        · have h5 : SIXLOWPAN_FRAGN_HDR_LEN = 5 := rfl
          have hbase := fragnBase_eq framelen (framer + compLen + 5) hcap (by omega)
          have hble : fragnBase framelen (framer + compLen + 5) ≤
              framelen - (framer + compLen + 5) := by
            rw [hbase]; omega
          have hple : fragnPaysize framelen (framer + compLen + 5)
              (buflen - outlen) ≤ framelen - (framer + compLen + 5) := by
            unfold fragnPaysize
            split
            · omega
            · exact hble
          simp only [fragnFrame, h5, u16]
          omega
        · exact ih _ gs hloop f hf
    · unfold fragnLoop at h
      rw [if_neg hlt] at h
      obtain rfl := Option.some.inj h
      intro f hf
      cases hf

/-- C2 (amended): on every terminating path that returns OK, each
emitted frame has io_len at most the link frame capacity, provided the
MAC header length plus compressed-header length plus the 5-byte FRAGN
fragment header fits in the capacity (and the capacity is at most
255, as for IEEE 802.15.4). -/
theorem c2_amended_len_le (framelen : Nat) (fragEnabled : Bool) (sendHdrlen : Int)
    (compLen uncompLen : Nat) (compBytes buf : List Nat) (buflen : Nat) (ieee : Ieee)
    (r : QueueResult)
    (hflen : framelen ≤ 255)
    (hcap : sendHdrlen.toNat + compLen + 5 ≤ framelen)
    (hr : sixlowpan_queue_frames framelen fragEnabled sendHdrlen compLen uncompLen
            compBytes buf buflen ieee = some r)
    (hok : r.ret = OK) :
    ∀ f ∈ r.framelist, f.len ≤ framelen := by
  unfold sixlowpan_queue_frames at hr
  by_cases h0 : sendHdrlen < 0
  · rw [if_pos h0] at hr
    obtain rfl := Option.some.inj hr
    exfalso
    simp only [OK] at hok
    omega
  · rw [if_neg h0] at hr
    by_cases hdec : ((buflen : Int) >
        ((framelen : Int) - ((sendHdrlen.toNat + compLen : Nat) : Int)) % (2 ^ 64))
    · rw [if_pos hdec] at hr
      cases fragEnabled with
      | false =>
        rw [if_neg (by simp)] at hr
        obtain rfl := Option.some.inj hr
        exfalso
        simp only [OK, E2BIG] at hok
        omega
      | true =>
        rw [if_pos rfl] at hr
        cases hloop : fragnLoop framelen sendHdrlen.toNat compLen compBytes buf
            (u16 (buflen + uncompLen)) ieee.dgramtag buflen
            (frag1Paysize framelen (sendHdrlen.toNat + compLen + SIXLOWPAN_FRAG1_HDR_LEN))
            (buflen + 1) with
        | none => rw [hloop] at hr; cases hr
        | some fs =>
          rw [hloop] at hr
          obtain rfl := Option.some.inj hr
          intro f hf
          rcases List.mem_cons.mp hf with rfl | hf
          · rw [withPktlen_len]
            have h4 : SIXLOWPAN_FRAG1_HDR_LEN = 4 := rfl
            have hps1 := frag1Paysize_eq framelen (sendHdrlen.toNat + compLen + 4)
              (by omega) (by omega)
            simp only [frag1Frame, h4, u16]
            omega
          · exact fragnLoop_len_le framelen sendHdrlen.toNat compLen compBytes buf
              (u16 (buflen + uncompLen)) ieee.dgramtag buflen hflen hcap
              (buflen + 1) _ fs hloop f hf
    · rw [if_neg hdec] at hr
      obtain rfl := Option.some.inj hr
      intro f hf
      have hble : ¬ (framelen - (sendHdrlen.toNat + compLen) < buflen) := by
        intro hc
        exact hdec ((decision_iff framelen (sendHdrlen.toNat + compLen) buflen
          (by omega) (by omega)).mpr hc)
      rcases List.mem_singleton.mp hf with rfl
      simp only [u16]
      omega

/-- Counterexample to C2 as stated: with capacity 127, MAC header 11
and 112 compressed-header bytes (MAC + compressed = 123, not
exceeding the capacity, as the claim assumes), a 300-byte datagram is
fragmented on a successful OK path into frames of io_len 127, 376 and
180: the two FRAGN frames exceed the capacity, because the int
computation (127 - fragn_hdrlen) & 0xf8 with fragn_hdrlen = 128 yields
248 from the negative difference. -/
theorem c2_counterexample :
    (11 : Int).toNat + 112 ≤ 127 ∧
    (sixlowpan_queue_frames 127 true 11 112 48 (List.replicate 112 0)
        (List.replicate 300 3) 300 ⟨5, []⟩).map
        (fun r => (r.ret, r.framelist.map (fun f => f.len)))
      = some (OK, [127, 376, 180]) ∧
    ¬ (376 ≤ 127) := by decide

/-- Witness for the amended C2 at a concrete non-fragmented send: the
single emitted frame respects the capacity 30. -/
theorem c2_amended_len_le_witness :
    ({ body := [1, 2, 3, 9, 9, 9, 9, 9], len := 10, pktlen := 10 } : Frame).len ≤ 30 :=
  c2_amended_len_le 30 true 2 3 4 [1, 2, 3] [9, 9, 9, 9, 9] 5 ⟨7, []⟩
    { ret := OK, framelist := [{ body := [1, 2, 3, 9, 9, 9, 9, 9], len := 10, pktlen := 10 }],
      dgramtag := 7 } (by decide) (by decide) (by decide) (by decide)
    { body := [1, 2, 3, 9, 9, 9, 9, 9], len := 10, pktlen := 10 } (by decide)

/-- C8: with fragmentation compiled out, a datagram that does not fit
in one frame makes the queuer return -E2BIG, leaving the frame list
and the tag exactly as they were. -/
theorem c8_oversize_no_frag (framelen : Nat) (sendHdrlen : Int) (compLen uncompLen : Nat)
    (compBytes buf : List Nat) (buflen : Nat) (ieee : Ieee)
    (h0 : 0 ≤ sendHdrlen)
    (hdec : (buflen : Int) >
        ((framelen : Int) - ((sendHdrlen.toNat + compLen : Nat) : Int)) % (2 ^ 64)) :
    sixlowpan_queue_frames framelen false sendHdrlen compLen uncompLen compBytes buf
        buflen ieee
      = some { ret := -E2BIG, framelist := ieee.framelist, dgramtag := ieee.dgramtag } := by
  unfold sixlowpan_queue_frames
  rw [if_neg (by omega), if_pos hdec, if_neg (by simp)]

/-- Witness for C8: a 200-byte datagram with 60 bytes of MAC plus
compressed headers in a 127-byte frame, fragmentation disabled. -/
theorem c8_oversize_no_frag_witness :
    sixlowpan_queue_frames 127 false 11 49 48 (List.replicate 49 7)
        (List.replicate 200 9) 200 ⟨5, []⟩
      = some { ret := -E2BIG, framelist := [], dgramtag := 5 } :=
  c8_oversize_no_frag 127 11 49 48 (List.replicate 49 7) (List.replicate 200 9) 200
    ⟨5, []⟩ (by decide) (by decide)

/-- C10: on both failure returns (negative MAC header-size query,
propagated verbatim, and the too-big failure) the interface frame
list head and the datagram tag are exactly the entry values. -/
theorem c10_failure_state_preserved (framelen : Nat) (fragEnabled : Bool)
    (sendHdrlen : Int) (compLen uncompLen : Nat) (compBytes buf : List Nat)
    (buflen : Nat) (ieee : Ieee)
    (h : sendHdrlen < 0 ∨ (fragEnabled = false ∧
          (buflen : Int) >
            ((framelen : Int) - ((sendHdrlen.toNat + compLen : Nat) : Int)) % (2 ^ 64))) :
    sixlowpan_queue_frames framelen fragEnabled sendHdrlen compLen uncompLen compBytes
        buf buflen ieee
      = some { ret := if sendHdrlen < 0 then sendHdrlen else -E2BIG,
               framelist := ieee.framelist, dgramtag := ieee.dgramtag } := by
  rcases h with h | ⟨hf, hdec⟩
  · unfold sixlowpan_queue_frames
    rw [if_pos h, if_pos h]
  · subst hf
    unfold sixlowpan_queue_frames
    by_cases h0 : sendHdrlen < 0
    · rw [if_pos h0, if_pos h0]
    · rw [if_neg h0, if_pos hdec, if_neg (by simp), if_neg h0]

/-- Witness for C10 on the propagated MAC header-size failure. -/
theorem c10_failure_state_preserved_witness :
    sixlowpan_queue_frames 127 true (-19) 0 0 [] (List.replicate 50 1) 50
        ⟨12, [{ body := [1], len := 1, pktlen := 1 }]⟩
      = some { ret := if (-19 : Int) < 0 then (-19 : Int) else -E2BIG,
               framelist := [{ body := [1], len := 1, pktlen := 1 }], dgramtag := 12 } :=
  c10_failure_state_preserved 127 true (-19) 0 0 [] (List.replicate 50 1) 50
    ⟨12, [{ body := [1], len := 1, pktlen := 1 }]⟩ (Or.inl (by decide))

end SixlowpanModel
namespace SixlowpanModel

/-- C7: for TCP, UDP and ICMPv6 the uncompressed-dispatch writer emits
the dispatch byte 0x41, the 40-byte IPv6 header and protosize bytes of
transport header copied from the input, advancing frame_hdrlen by
1 + 40 + protosize and uncomp_hdrlen by 40 + protosize, with protosize
= (tcpoffset >> 4) << 2 for TCP and 8 for UDP and ICMPv6. -/
theorem c7_dispatch_writer (dat : List Nat) (fh ps : Nat)
    (hps : ps = if dat.getD 6 0 = IP_PROTO_TCP then (dat.getD 52 0 >>> 4) <<< 2 else 8)
    (hproto : dat.getD 6 0 = IP_PROTO_TCP ∨ dat.getD 6 0 = IP_PROTO_UDP ∨
              dat.getD 6 0 = IP_PROTO_ICMP6)
    (hlen : 40 + ps ≤ dat.length) :
    sixlowpan_compress_ipv6hdr dat fh 0 =
      { written := SIXLOWPAN_DISPATCH_IPV6 :: (dat.take 40 ++ (dat.drop 40).take ps),
        frame_hdrlen := fh + (1 + 40 + ps),
        uncomp_hdrlen := 40 + ps } ∧
    (SIXLOWPAN_DISPATCH_IPV6 :: (dat.take 40 ++ (dat.drop 40).take ps)).length
      = 1 + 40 + ps := by
  have hpz : protosize dat = some ps := by
    unfold protosize
    rcases hproto with hp | hp | hp <;>
      rw [hps, hp] <;>
      norm_num [IP_PROTO_TCP, IP_PROTO_UDP, IP_PROTO_ICMP6, UDP_HDRLEN, ICMPv6_HDRLEN]
  constructor
  · simp only [sixlowpan_compress_ipv6hdr, hpz, SIXLOWPAN_IPV6_HDR_LEN, IPv6_HDRLEN,
      SIXLOWPAN_DISPATCH_IPV6, CompressResult.mk.injEq]
    refine ⟨?_, ?_, ?_⟩
    · norm_num
    · clear hps hproto hlen hpz
      omega
    · trivial
  · rw [List.length_cons, List.length_append, List.length_take, List.length_take,
      List.length_drop, Nat.min_eq_left (by omega), Nat.min_eq_left (by omega)]
    omega

/-- Witness for C7 on a 48-byte UDP datagram. -/
theorem c7_dispatch_writer_witness :
    sixlowpan_compress_ipv6hdr ((List.replicate 48 0).set 6 17) 11 0 =
      { written := SIXLOWPAN_DISPATCH_IPV6 ::
          (((List.replicate 48 0).set 6 17).take 40 ++
            (((List.replicate 48 0).set 6 17).drop 40).take 8),
        frame_hdrlen := 11 + (1 + 40 + 8),
        uncomp_hdrlen := 40 + 8 } ∧
    (SIXLOWPAN_DISPATCH_IPV6 ::
        (((List.replicate 48 0).set 6 17).take 40 ++
          (((List.replicate 48 0).set 6 17).drop 40).take 8)).length
      = 1 + 40 + 8 :=
  c7_dispatch_writer ((List.replicate 48 0).set 6 17) 11 8 (by decide)
    (Or.inr (Or.inl (by decide))) (by decide)

/-- C9: for an unrecognized proto the writer copies only the dispatch
byte and the 40-byte IPv6 header (uncomp_hdrlen stays at 40), and the
queuer nevertheless completes with OK. -/
theorem c9_unknown_proto (dat : List Nat) (framelen : Nat) (fragEnabled : Bool)
    (sendHdrlen : Int) (buflen : Nat) (ieee : Ieee) (fh : Nat)
    (h1 : ¬ dat.getD 6 0 = IP_PROTO_TCP) (h2 : ¬ dat.getD 6 0 = IP_PROTO_UDP)
    (h3 : ¬ dat.getD 6 0 = IP_PROTO_ICMP6)
    (h0 : 0 ≤ sendHdrlen) (hflen : framelen ≤ 255)
    (hcap : sendHdrlen.toNat + 41 ≤ framelen)
    (hfit : buflen ≤ framelen - (sendHdrlen.toNat + 41)) :
    sixlowpan_compress_ipv6hdr dat fh 0 =
      { written := SIXLOWPAN_DISPATCH_IPV6 :: dat.take 40,
        frame_hdrlen := fh + 41, uncomp_hdrlen := 40 } ∧
    ∃ r, sixlowpan_queue_frames_ipv6 framelen fragEnabled sendHdrlen dat buflen ieee
          = some r ∧ r.ret = OK := by
  have hpz : protosize dat = none := by
    unfold protosize
    rw [if_neg h1, if_neg h2, if_neg h3]
  have hcomp : ∀ g : Nat, sixlowpan_compress_ipv6hdr dat g 0 =
      { written := SIXLOWPAN_DISPATCH_IPV6 :: dat.take 40,
        frame_hdrlen := g + 41, uncomp_hdrlen := 40 } := by
    intro g
    simp only [sixlowpan_compress_ipv6hdr, hpz, SIXLOWPAN_IPV6_HDR_LEN, IPv6_HDRLEN]
  refine ⟨hcomp fh, ?_⟩
  unfold sixlowpan_queue_frames_ipv6
  rw [hcomp sendHdrlen.toNat]
  have hsub : sendHdrlen.toNat + 41 - sendHdrlen.toNat = 41 := by omega
  simp only [hsub]
  unfold sixlowpan_queue_frames
  rw [if_neg (by omega)]
  rw [if_neg ?hnd]
  case hnd =>
    intro hc
    have := (decision_iff framelen (sendHdrlen.toNat + 41) buflen (by omega)
      (by omega)).mp hc
    omega
  exact ⟨_, rfl, rfl⟩

/-- Witness for C9 on a 70-byte datagram with proto 99. -/
theorem c9_unknown_proto_witness :
    sixlowpan_compress_ipv6hdr ((List.replicate 70 0).set 6 99) 11 0 =
      { written := SIXLOWPAN_DISPATCH_IPV6 :: ((List.replicate 70 0).set 6 99).take 40,
        frame_hdrlen := 11 + 41, uncomp_hdrlen := 40 } ∧
    ∃ r, sixlowpan_queue_frames_ipv6 127 true 11 ((List.replicate 70 0).set 6 99) 70
            ⟨0, []⟩
          = some r ∧ r.ret = OK :=
  c9_unknown_proto ((List.replicate 70 0).set 6 99) 127 true 11 70 ⟨0, []⟩ 11
    (by decide) (by decide) (by decide) (by decide) (by decide) (by decide) (by decide)

/-- C6 evidence: spec scenario 1 (UDP/IPv6, 20 payload bytes, buflen 68
including the 48 header bytes, capacity 127, MAC header 11) does not
produce one 80-byte frame: the queuer counts the full buflen against
the residual capacity 127 - 60 = 67 and fragments, emitting frames of
io_len 120 and 77 (head pktlen 197) with fragmentation enabled, and
failing with -E2BIG with fragmentation compiled out. -/
theorem c6_scenario_one_bug :
    (sixlowpan_queue_frames_ipv6 127 true 11 udpDat68 68 ⟨0, []⟩).map
        (fun r => (r.ret, r.framelist.map (fun f => f.len),
          r.framelist.map (fun f => f.pktlen)))
      = some (OK, [120, 77], [197, 0]) ∧
    (sixlowpan_queue_frames_ipv6 127 false 11 udpDat68 68 ⟨0, []⟩).map
        (fun r => (r.ret, r.framelist.length))
      = some (-E2BIG, 0) := by
  constructor <;> decide

end SixlowpanModel
